import Mathlib

/-!
Verification of the ember-plus wire stack against its specification.

The development shallowly embeds two parts of the repository:

* `S101`: the stream framing decoder of
  `libs101/Headers/s101/StreamDecoder.hpp` (state machine `readByte`,
  iterated reading `read`, `reset`).
* `Glow`: the typed argument views of
  `libember/Headers/ember/glow/GlowInvocation.hpp` and
  `libember/Headers/ember/glow/GlowFunctionBase.hpp`.

Machine bytes are modelled as `Nat` with explicit `% 256` where the C++
code narrows, and the 16-bit CRC accumulator stays below `2 ^ 16` by
construction of the update function.  Mutating member functions are
modelled as state-passing functions; a callback is modelled by returning
the sequence of payloads it would have been invoked with.
-/

namespace EmberPlus

namespace S101

/-- Modelled from the spec: the framing byte constants of `s101/Byte.hpp`
(the header is not part of the source sample).  `BoF` is the start
marker, `EoF` the end marker, `CE` the escape marker; the three are
distinct reserved byte values, and `XOR` is the fixed unescape mask. -/
def Byte.BoF : Nat := 0xFE

/-- End-of-frame marker byte (see `Byte.BoF`). -/
def Byte.EoF : Nat := 0xFF

/-- Escape marker byte (see `Byte.BoF`). -/
def Byte.CE : Nat := 0xFD

/-- Fixed unescape mask (see `Byte.BoF`). -/
def Byte.XOR : Nat := 0x20

/-- One shift/xor round of the reflected CRC-CCITT polynomial 0x8408. -/
def Crc16.step (c : Nat) : Nat :=
  if c % 2 = 1 then (c / 2) ^^^ 0x8408 else c / 2

/-- Eight rounds of `Crc16.step`. -/
def Crc16.steps : Nat → Nat → Nat
  | 0, c => c
  | n + 1, c => Crc16.steps n (Crc16.step c)

/-- Modelled from the spec: `util::Crc16::add` of `s101/util/Crc16.hpp`
(the header is not part of the source sample): the byte-at-a-time update
of the 16-bit CRC-CCITT/X.25 running checksum, table-driven in the
original and written here in the equivalent bitwise form: xor the byte
into the accumulator, then run eight shift/xor rounds with the reflected
polynomial 0x8408. -/
def Crc16.add (crc b : Nat) : Nat :=
  Crc16.steps 8 (crc ^^^ (b % 256))

/-- The decoder state of `StreamDecoder`: the accumulation buffer
`m_bytes`, the escape flag `m_escape` and the CRC accumulator `m_crc`. -/
structure StreamDecoder where
  bytes : List Nat
  escape : Bool
  crc : Nat
deriving DecidableEq

/-- `StreamDecoder::StreamDecoder()`: `m_escape(false), m_crc(0xFFFF)`
with an empty byte vector. -/
def StreamDecoder.init : StreamDecoder :=
  ⟨[], false, 0xFFFF⟩

/-- `StreamDecoder::reset()`: clear the buffer, clear the escape flag,
reinitialize the CRC accumulator. -/
def StreamDecoder.reset (_ : StreamDecoder) : StreamDecoder :=
  ⟨[], false, 0xFFFF⟩

/-- `StreamDecoder::readByte(input, callback, state)`: one step of the
decoder.  The returned `Option` is the payload the callback is invoked
with, `none` when the callback is not invoked. -/
def StreamDecoder.readByte (s : StreamDecoder) (input : Nat) :
    StreamDecoder × Option (List Nat) :=
  let byte := input % 256
  if s.escape then
    (⟨s.bytes ++ [byte ^^^ Byte.XOR], false,
      Crc16.add s.crc (byte ^^^ Byte.XOR)⟩, none)
  else if byte = Byte.BoF then
    (s.reset, none)
  else if byte = Byte.EoF then
    if s.crc = 0xF0B8 ∧ s.bytes.length > 1 then
      (s.reset, some (s.bytes.take (s.bytes.length - 2)))
    else
      (s.reset, none)
  else if byte = Byte.CE then
    ({ s with escape := true }, none)
  else
    (⟨s.bytes ++ [byte], s.escape, Crc16.add s.crc byte⟩, none)

/-- `StreamDecoder::read(first, last, callback, state)`: the iteration
`for(; first != last; ++first) readByte(*first, callback, state);`,
with the trace of callback payloads accumulated in order. -/
def StreamDecoder.read (s : StreamDecoder) (input : List Nat) :
    StreamDecoder × List (List Nat) :=
  input.foldl
    (fun acc b =>
      let r := acc.1.readByte b
      (r.1, acc.2 ++ r.2.toList))
    (s, [])

/-- The spec's description of `read`: calling `readByte` on each byte in
iteration order, one at a time, the processing of byte N (including any
callback invocation) completing before byte N+1 is examined.  Used to
compare against `StreamDecoder.read` from the source. -/
def StreamDecoder.readSpec : StreamDecoder → List Nat →
    StreamDecoder × List (List Nat)
  | s, [] => (s, [])
  | s, b :: rest =>
    let r := s.readByte b
    let q := StreamDecoder.readSpec r.1 rest
    (q.1, r.2.toList ++ q.2)

/-- Unrolling lemma for `StreamDecoder.read`: the iterative loop with an
output accumulator agrees with the sequential description `readSpec`. -/
theorem StreamDecoder.read_go (input : List Nat) :
    ∀ (s : StreamDecoder) (acc : List (List Nat)),
      input.foldl
        (fun acc b =>
          let r := acc.1.readByte b
          (r.1, acc.2 ++ r.2.toList))
        (s, acc)
        = ((s.readSpec input).1, acc ++ (s.readSpec input).2) := by
  induction input with
  | nil => intro s acc; simp [StreamDecoder.readSpec]
  | cons b rest ih =>
    intro s acc
    simp only [List.foldl_cons, StreamDecoder.readSpec]
    rw [ih]
    simp

end S101

end EmberPlus

namespace EmberPlus.S101

/-- Claim C1, counterexample: the claim requires strictly more than 2
buffered bytes for the callback to fire, but the code of
`StreamDecoder::readByte` tests `m_bytes.size() > 1`.  Feeding the
concrete stream `[BoF, 0x00, 0x00]` from the initial state buffers
exactly two bytes and leaves the CRC at the valid residue 0xF0B8 (the
complemented CRC of the empty message is 0x0000), so the next `EoF` byte
invokes the callback with an empty payload even though the buffer does
not have more than 2 bytes. -/
theorem C1_end_of_frame_counterexample :
    (StreamDecoder.init.read [0xFE, 0x00, 0x00]).1.escape = false ∧
    (StreamDecoder.init.read [0xFE, 0x00, 0x00]).1.bytes.length = 2 ∧
    ¬ (StreamDecoder.init.read [0xFE, 0x00, 0x00]).1.bytes.length > 2 ∧
    ((StreamDecoder.init.read [0xFE, 0x00, 0x00]).1.readByte 0xFF).2
      = some [] := by
  decide

/-- Claim C1 (amended: the size threshold is "more than 1 byte", not
"more than 2 bytes"): for every decoder state that is not
escape-pending, feeding `END_MARKER` to `StreamDecoder::readByte`
invokes the payload callback iff the accumulated buffer has more than 1
byte and the running CRC equals 0xF0B8; when invoked, the callback
receives the buffered bytes minus the trailing 2 checksum bytes; when
the condition fails no callback is invoked and no error is surfaced; in
either case the state is reset afterward. -/
theorem C1_end_of_frame (s : StreamDecoder) (h : s.escape = false) :
    ((s.readByte Byte.EoF).2 ≠ none ↔ s.crc = 0xF0B8 ∧ s.bytes.length > 1) ∧
    (s.crc = 0xF0B8 ∧ s.bytes.length > 1 →
      (s.readByte Byte.EoF).2 = some (s.bytes.take (s.bytes.length - 2))) ∧
    (¬(s.crc = 0xF0B8 ∧ s.bytes.length > 1) → (s.readByte Byte.EoF).2 = none) ∧
    (s.readByte Byte.EoF).1 = StreamDecoder.init := by
  simp only [StreamDecoder.readByte, h, Byte.EoF, Byte.BoF, Byte.CE,
    StreamDecoder.reset, StreamDecoder.init]
  norm_num
  split
  case isTrue hc => simp [hc]
  case isFalse hc => simp [hc]; omega

/-- Witness for C1: the amended theorem applied at the concrete state
with buffer `[0x01, 0x02, 0x03]`, escape flag clear and CRC 0. -/
theorem C1_end_of_frame_witness :
    (((StreamDecoder.mk [0x01, 0x02, 0x03] false 0).readByte Byte.EoF).2 ≠ none ↔
      (StreamDecoder.mk [0x01, 0x02, 0x03] false 0).crc = 0xF0B8 ∧
      (StreamDecoder.mk [0x01, 0x02, 0x03] false 0).bytes.length > 1) ∧
    ((StreamDecoder.mk [0x01, 0x02, 0x03] false 0).crc = 0xF0B8 ∧
      (StreamDecoder.mk [0x01, 0x02, 0x03] false 0).bytes.length > 1 →
      ((StreamDecoder.mk [0x01, 0x02, 0x03] false 0).readByte Byte.EoF).2 =
        some ((StreamDecoder.mk [0x01, 0x02, 0x03] false 0).bytes.take
          ((StreamDecoder.mk [0x01, 0x02, 0x03] false 0).bytes.length - 2))) ∧
    (¬((StreamDecoder.mk [0x01, 0x02, 0x03] false 0).crc = 0xF0B8 ∧
        (StreamDecoder.mk [0x01, 0x02, 0x03] false 0).bytes.length > 1) →
      ((StreamDecoder.mk [0x01, 0x02, 0x03] false 0).readByte Byte.EoF).2 = none) ∧
    ((StreamDecoder.mk [0x01, 0x02, 0x03] false 0).readByte Byte.EoF).1 =
      StreamDecoder.init :=
  C1_end_of_frame (StreamDecoder.mk [0x01, 0x02, 0x03] false 0) rfl

/-- Claim C4: in an escape-pending state, `StreamDecoder::readByte`
clears the escape flag, appends the incoming byte XOR the fixed
unescape mask to the buffer, and folds that same unescaped byte into
the running CRC; the callback is not invoked. -/
theorem C4_escape_pending_unescapes (s : StreamDecoder) (b : Nat)
    (h : s.escape = true) :
    s.readByte b =
      (⟨s.bytes ++ [b % 256 ^^^ Byte.XOR], false,
        Crc16.add s.crc (b % 256 ^^^ Byte.XOR)⟩, none) := by
  simp [StreamDecoder.readByte, h]

/-- Witness for C4: the theorem applied at the concrete escape-pending
state with buffer `[0x07]` and CRC 0x1234, fed the byte 0xDF. -/
theorem C4_escape_pending_unescapes_witness :
    (StreamDecoder.mk [0x07] true 0x1234).readByte 0xDF =
      (⟨(StreamDecoder.mk [0x07] true 0x1234).bytes ++ [0xDF % 256 ^^^ Byte.XOR],
        false,
        Crc16.add (StreamDecoder.mk [0x07] true 0x1234).crc
          (0xDF % 256 ^^^ Byte.XOR)⟩, none) :=
  C4_escape_pending_unescapes (StreamDecoder.mk [0x07] true 0x1234) 0xDF rfl

/-- Claim C5: in a state that is not escape-pending, feeding
`START_MARKER` discards any partial frame and resets the state to the
initial one without invoking the callback, and feeding `START_MARKER`
again immediately afterwards leaves the state unchanged. -/
theorem C5_start_marker_resets (s : StreamDecoder) (h : s.escape = false) :
    s.readByte Byte.BoF = (StreamDecoder.init, none) ∧
    (s.readByte Byte.BoF).1.readByte Byte.BoF = (StreamDecoder.init, none) := by
  simp [StreamDecoder.readByte, h, Byte.BoF, Byte.EoF, Byte.CE,
    StreamDecoder.reset, StreamDecoder.init]

/-- Witness for C5: the theorem applied at the concrete state with a
partially accumulated frame `[0xAA, 0xBB]` and CRC 0x4242. -/
theorem C5_start_marker_resets_witness :
    (StreamDecoder.mk [0xAA, 0xBB] false 0x4242).readByte Byte.BoF =
      (StreamDecoder.init, none) ∧
    ((StreamDecoder.mk [0xAA, 0xBB] false 0x4242).readByte Byte.BoF).1.readByte
        Byte.BoF = (StreamDecoder.init, none) :=
  C5_start_marker_resets (StreamDecoder.mk [0xAA, 0xBB] false 0x4242) rfl

/-- Claim C6: the state after construction, after `reset`, after a start
marker and after every end-of-frame (valid or invalid) is the same:
empty buffer, escape flag false, CRC accumulator 0xFFFF. -/
theorem C6_lifecycle_reset (s : StreamDecoder) (h : s.escape = false) :
    StreamDecoder.init.bytes = [] ∧
    StreamDecoder.init.escape = false ∧
    StreamDecoder.init.crc = 0xFFFF ∧
    s.reset = StreamDecoder.init ∧
    (s.readByte Byte.BoF).1 = StreamDecoder.init ∧
    (s.readByte Byte.EoF).1 = StreamDecoder.init := by
  refine ⟨rfl, rfl, rfl, rfl, ?_, ?_⟩
  · simp [StreamDecoder.readByte, h, Byte.BoF, Byte.EoF, Byte.CE,
      StreamDecoder.reset, StreamDecoder.init]
  · simp only [StreamDecoder.readByte, h, Byte.EoF, Byte.BoF, Byte.CE,
      StreamDecoder.reset, StreamDecoder.init]
    norm_num
    split <;> rfl

/-- Witness for C6: the theorem applied at the concrete state with
buffer `[0x00, 0x00]`, escape flag clear and CRC 0xF0B8. -/
theorem C6_lifecycle_reset_witness :
    StreamDecoder.init.bytes = [] ∧
    StreamDecoder.init.escape = false ∧
    StreamDecoder.init.crc = 0xFFFF ∧
    (StreamDecoder.mk [0x00, 0x00] false 0xF0B8).reset = StreamDecoder.init ∧
    ((StreamDecoder.mk [0x00, 0x00] false 0xF0B8).readByte Byte.BoF).1 =
      StreamDecoder.init ∧
    ((StreamDecoder.mk [0x00, 0x00] false 0xF0B8).readByte Byte.EoF).1 =
      StreamDecoder.init :=
  C6_lifecycle_reset (StreamDecoder.mk [0x00, 0x00] false 0xF0B8) rfl

/-- Claim C8: `StreamDecoder::read(first, last, callback)` is equivalent
to calling `readByte` on each byte in iteration order, one at a time:
the empty range leaves the state unchanged and emits nothing, and on
`b :: rest` the processing of `b` (including any callback payload it
emits) completes before the rest of the range is examined. -/
theorem C8_read_is_byte_at_a_time (s : StreamDecoder) (b : Nat)
    (input : List Nat) :
    s.read [] = (s, []) ∧
    s.read input = s.readSpec input ∧
    s.read (b :: input) =
      (((s.readByte b).1.read input).1,
        (s.readByte b).2.toList ++ ((s.readByte b).1.read input).2) := by
  refine ⟨rfl, ?_, ?_⟩
  · simp [StreamDecoder.read, StreamDecoder.read_go]
  · simp only [StreamDecoder.read, List.foldl_cons, List.nil_append,
      StreamDecoder.read_go]

/-- Claim C9: in an escape-pending state, `StreamDecoder::readByte`
never treats the incoming byte as a frame marker, whatever its value
(marker values included): it never resets or truncates the buffer (the
new buffer is the old one with exactly the unescaped byte appended),
never invokes the callback, and never re-enters the escape-pending
state. -/
theorem C9_escape_pending_never_marker (s : StreamDecoder) (b : Nat)
    (h : s.escape = true) :
    (s.readByte b).2 = none ∧
    (s.readByte b).1.escape = false ∧
    (s.readByte b).1.bytes = s.bytes ++ [b % 256 ^^^ Byte.XOR] ∧
    (s.readByte b).1.crc = Crc16.add s.crc (b % 256 ^^^ Byte.XOR) := by
  simp [StreamDecoder.readByte, h]

/-- Witness for C9: the theorem applied at a concrete escape-pending
state fed the end-marker byte value itself. -/
theorem C9_escape_pending_never_marker_witness :
    ((StreamDecoder.mk [0x10] true 0xABCD).readByte Byte.EoF).2 = none ∧
    ((StreamDecoder.mk [0x10] true 0xABCD).readByte Byte.EoF).1.escape = false ∧
    ((StreamDecoder.mk [0x10] true 0xABCD).readByte Byte.EoF).1.bytes =
      (StreamDecoder.mk [0x10] true 0xABCD).bytes ++
        [Byte.EoF % 256 ^^^ Byte.XOR] ∧
    ((StreamDecoder.mk [0x10] true 0xABCD).readByte Byte.EoF).1.crc =
      Crc16.add (StreamDecoder.mk [0x10] true 0xABCD).crc
        (Byte.EoF % 256 ^^^ Byte.XOR) :=
  C9_escape_pending_never_marker (StreamDecoder.mk [0x10] true 0xABCD)
    Byte.EoF rfl

end EmberPlus.S101

namespace EmberPlus.Glow

/-- Modelled from the spec: `ber::Value` (its header is not part of the
source sample) is a scalar payload of one of a fixed set of primitive
kinds; for the claims below only its identity matters, so a
representative subset of the kinds is enough. -/
inductive BerValue where
  | boolean (b : Bool)
  | integer (i : Int)
  | utf8String (s : String)
  | null
deriving DecidableEq

/-- Modelled from the spec: `glow::Value` (its header is not part of the
source sample) wraps a `ber::Value`; `toBerValue` returns the wrapped
value, and constructing a `Value` from a `ber::Value` wraps it. -/
structure Value where
  berValue : BerValue
deriving DecidableEq

/-- `glow::Value::toBerValue()`. -/
def Value.toBerValue (v : Value) : BerValue := v.berValue

/-- Modelled from the spec: the conventional child-slot tags of
`GlowTags` (the header is not part of the source sample); for the
claims below only their distinctness matters, so they are modelled as
distinct naturals. `ElementDefault` is the default element tag used for
argument leaves. -/
def GlowTags.ElementDefault : Nat := 0

/-- Tag of the arguments slot of a `GlowInvocation` (see
`GlowTags.ElementDefault`). -/
def GlowTags.InvocationArguments : Nat := 1

/-- Tag of the arguments slot of a `GlowFunctionBase` (see
`GlowTags.ElementDefault`). -/
def GlowTags.FunctionArguments : Nat := 3

/-- Tag of the result slot of a `GlowFunctionBase` (see
`GlowTags.ElementDefault`). -/
def GlowTags.FunctionResult : Nat := 4

/-- A DOM node of the object tree, discriminated by its runtime type:
`dom::VariantLeaf` (a tagged scalar value), `dom::Sequence` (a tagged
ordered child list), `GlowElementCollection` (the children collection)
and `GlowTupleItemDescription` (the container subtype collected by the
function argument/result views).  Modelled from the spec (the dom
headers are not part of the source sample): a leaf owns one value, a
container owns an ordered list of children. -/
inductive Node where
  | variantLeaf (tag : Nat) (value : BerValue)
  | sequence (tag : Nat) (children : List Node)
  | elementCollection (tag : Nat) (children : List Node)
  | tupleItemDescription (tag : Nat) (children : List Node)

/-- Runtime test used by the typed-view lookup: is this node a
`dom::Sequence` carrying the slot tag `t`? -/
def Node.isSequenceWithTag (t : Nat) : Node → Bool
  | Node.sequence tag _ => tag = t
  | _ => false

/-- Runtime test: is this node a `GlowElementCollection` carrying the
slot tag `t`? -/
def Node.isElementCollectionWithTag (t : Nat) : Node → Bool
  | Node.elementCollection tag _ => tag = t
  | _ => false

/-- Modelled from the spec: the read-only half of a typed view — find
the backing `dom::Sequence` for a slot tag among the immediate
children, returning `none` when absent; it never creates. -/
def findSequence (cs : List Node) (t : Nat) : Option Node :=
  cs.find? (Node.isSequenceWithTag t)

/-- Modelled from the spec: the mutable half of a typed view — lazily
append an empty backing `dom::Sequence` for the slot tag when absent,
and leave the child list unchanged when it is already present. -/
def ensureSequence (cs : List Node) (t : Nat) : List Node :=
  if (findSequence cs t).isSome then cs else cs ++ [Node.sequence t []]

/-- In-place mutation through the pointer returned by a typed view:
replace the child list of the first `dom::Sequence` with slot tag `t`
by `gs`, leaving all other children untouched. -/
def replaceFirstSequence : List Node → Nat → List Node → List Node
  | [], _, _ => []
  | n :: rest, t, gs =>
    if n.isSequenceWithTag t then Node.sequence t gs :: rest
    else n :: replaceFirstSequence rest t gs

/-- The child list of a found sequence node. -/
def sequenceChildren (cs : List Node) (t : Nat) : Option (List Node) :=
  match findSequence cs t with
  | some (Node.sequence _ gs) => some gs
  | _ => none

/-- A `GlowInvocation`, reduced to the state the claims are about: the
ordered child list of the invocation container. -/
structure GlowInvocation where
  children : List Node

/-- `GlowInvocation::arguments() const`: the backing arguments sequence
(its child list), or `none` when absent; never creates.  The
`impl/GlowInvocation.ipp` body is not part of the source sample; the
lookup is modelled from the spec's typed-view contract. -/
def GlowInvocation.argumentsConst (inv : GlowInvocation) :
    Option (List Node) :=
  sequenceChildren inv.children GlowTags.InvocationArguments

/-- The dynamic cast `dynamic_cast<dom::VariantLeaf const*>` followed by
`Value(node->value())`: the typed value of a leaf child, `none` for any
other node shape.  It looks only at the node's own constructor, never
at grandchildren. -/
def Node.leafValue : Node → Option Value
  | Node.variantLeaf _ v => some ⟨v⟩
  | _ => none

/-- `GlowInvocation::typedArguments(dest)`: iterate the immediate
children of the arguments sequence, copy each `dom::VariantLeaf` into
`dest` converted back to a typed value and count it, silently skip
every other child; return 0 and write nothing when the arguments
sequence is absent.  The pair is (contents written to `dest`, returned
size). -/
def GlowInvocation.typedArguments (inv : GlowInvocation) :
    List Value × Nat :=
  match inv.argumentsConst with
  | none => ([], 0)
  | some gs =>
    gs.foldl
      (fun acc n =>
        match n with
        | Node.variantLeaf _ v => (acc.1 ++ [⟨v⟩], acc.2 + 1)
        | _ => acc)
      ([], 0)

/-- `GlowInvocation::setTypedArguments(firstValue, lastValue)`: fetch
the arguments sequence through the mutable accessor (creating it when
absent), clear it, then for each input value in order append a freshly
constructed `dom::VariantLeaf` carrying the value's BER encoding under
the default element tag. -/
def GlowInvocation.setTypedArguments (inv : GlowInvocation)
    (vs : List Value) : GlowInvocation :=
  let cs := ensureSequence inv.children GlowTags.InvocationArguments
  let leaves := vs.foldl
    (fun acc v =>
      acc ++ [Node.variantLeaf GlowTags.ElementDefault (Value.toBerValue v)])
    []
  ⟨replaceFirstSequence cs GlowTags.InvocationArguments leaves⟩

/-- A `GlowFunctionBase`, reduced to the state the claims are about:
the `m_childrenTag` constructor parameter and the ordered child list. -/
structure GlowFunctionBase where
  childrenTag : Nat
  children : List Node

/-- `GlowFunctionBase::arguments() const`: the backing arguments
sequence or `none`; never creates (lookup modelled from the spec, the
`.ipp` body is not part of the source sample). -/
def GlowFunctionBase.argumentsConst (f : GlowFunctionBase) :
    Option (List Node) :=
  sequenceChildren f.children GlowTags.FunctionArguments

/-- `GlowFunctionBase::result() const`: the backing result sequence or
`none`; never creates. -/
def GlowFunctionBase.resultConst (f : GlowFunctionBase) :
    Option (List Node) :=
  sequenceChildren f.children GlowTags.FunctionResult

/-- `GlowFunctionBase::children() const`: the backing
`GlowElementCollection` (its child list) under `m_childrenTag`, or
`none`; never creates. -/
def GlowFunctionBase.childrenConst (f : GlowFunctionBase) :
    Option (List Node) :=
  match f.children.find? (Node.isElementCollectionWithTag f.childrenTag) with
  | some (Node.elementCollection _ gs) => some gs
  | _ => none

/-- Modelled from the spec:
`util::TypeFilter<GlowTupleItemDescription>::collect` (the header is
not part of the source sample): copy into the destination exactly the
immediate children whose runtime type is `GlowTupleItemDescription`,
in order, and return the count copied. -/
def collectTupleItems (gs : List Node) : List Node × Nat :=
  gs.foldl
    (fun acc n =>
      match n with
      | Node.tupleItemDescription t sub =>
        (acc.1 ++ [Node.tupleItemDescription t sub], acc.2 + 1)
      | _ => acc)
    ([], 0)

/-- `GlowFunctionBase::typedArguments(dest)`: collect the
`GlowTupleItemDescription` children of the arguments sequence; return
0 and write nothing when the sequence is absent. -/
def GlowFunctionBase.typedArguments (f : GlowFunctionBase) :
    List Node × Nat :=
  match f.argumentsConst with
  | none => ([], 0)
  | some gs => collectTupleItems gs

/-- `GlowFunctionBase::typedResult(dest)`: collect the
`GlowTupleItemDescription` children of the result sequence; return 0
and write nothing when the sequence is absent. -/
def GlowFunctionBase.typedResult (f : GlowFunctionBase) :
    List Node × Nat :=
  match f.resultConst with
  | none => ([], 0)
  | some gs => collectTupleItems gs

/-- `GlowFunctionBase::arguments()` (mutable): lazily create the
backing arguments sequence when absent (modelled from the spec's
typed-view contract). -/
def GlowFunctionBase.ensureArguments (f : GlowFunctionBase) :
    GlowFunctionBase :=
  ⟨f.childrenTag, ensureSequence f.children GlowTags.FunctionArguments⟩

/-- `GlowFunctionBase::result()` (mutable): lazily create the backing
result sequence when absent. -/
def GlowFunctionBase.ensureResult (f : GlowFunctionBase) :
    GlowFunctionBase :=
  ⟨f.childrenTag, ensureSequence f.children GlowTags.FunctionResult⟩

/-- `GlowFunctionBase::children()` (mutable): lazily create the backing
`GlowElementCollection` under `m_childrenTag` when absent. -/
def GlowFunctionBase.ensureChildren (f : GlowFunctionBase) :
    GlowFunctionBase :=
  if (f.children.find? (Node.isElementCollectionWithTag f.childrenTag)).isSome
  then f
  else ⟨f.childrenTag,
    f.children ++ [Node.elementCollection f.childrenTag []]⟩

end EmberPlus.Glow

namespace EmberPlus.Glow

/-- Folding appends of single elements is a map. -/
theorem foldl_append_map {α β : Type} (f : α → β) (vs : List α) :
    ∀ acc : List β,
      vs.foldl (fun acc v => acc ++ [f v]) acc = acc ++ vs.map f := by
  induction vs with
  | nil => intro acc; simp
  | cons v rest ih => intro acc; simp [ih]

/-- After the mutable typed-view accessor ran, the backing sequence for
the slot tag is present. -/
theorem findSequence_ensure_isSome (cs : List Node) (t : Nat) :
    (findSequence (ensureSequence cs t) t).isSome := by
  unfold ensureSequence
  split
  case isTrue h => exact h
  case isFalse h =>
    unfold findSequence at h ⊢
    rw [List.find?_append]
    simp only [Option.not_isSome_iff_eq_none] at h
    rw [h]
    simp [Node.isSequenceWithTag]

/-- Replacing the child list of a present slot sequence makes the
read-only accessor see exactly the new child list. -/
theorem sequenceChildren_replaceFirst (t : Nat) (gs : List Node) :
    ∀ cs : List Node, (findSequence cs t).isSome →
      sequenceChildren (replaceFirstSequence cs t gs) t = some gs := by
  intro cs
  induction cs with
  | nil => intro h; simp [findSequence] at h
  | cons n rest ih =>
    intro h
    by_cases hn : n.isSequenceWithTag t
    · simp only [replaceFirstSequence, hn, if_pos]
      simp [sequenceChildren, findSequence, List.find?_cons,
        Node.isSequenceWithTag]
    · simp only [replaceFirstSequence, hn, if_neg, Bool.false_eq_true,
        not_false_iff]
      have hrest : (findSequence rest t).isSome := by
        unfold findSequence at h ⊢
        rw [List.find?_cons_of_neg] at h
        · exact h
        · simp [hn]
      have := ih hrest
      unfold sequenceChildren findSequence at this ⊢
      rw [List.find?_cons_of_neg]
      · exact this
      · simp [hn]

/-- The source loop of `GlowInvocation::typedArguments` computes the
`filterMap` of `Node.leafValue` over the children, together with its
length as the returned count. -/
theorem typedArguments_foldl (gs : List Node) :
    ∀ acc : List Value × Nat,
      gs.foldl
        (fun acc n =>
          match n with
          | Node.variantLeaf _ v => (acc.1 ++ [⟨v⟩], acc.2 + 1)
          | _ => acc)
        acc
      = (acc.1 ++ gs.filterMap Node.leafValue,
          acc.2 + (gs.filterMap Node.leafValue).length) := by
  induction gs with
  | nil => intro acc; simp
  | cons n rest ih =>
    intro acc
    cases n with
    | variantLeaf tg v =>
      simp only [List.foldl_cons, ih, List.filterMap_cons, Node.leafValue]
      simp [List.append_assoc]
      omega
    | sequence tg sub =>
      simp [List.foldl_cons, ih, List.filterMap_cons, Node.leafValue]
    | elementCollection tg sub =>
      simp [List.foldl_cons, ih, List.filterMap_cons, Node.leafValue]
    | tupleItemDescription tg sub =>
      simp [List.foldl_cons, ih, List.filterMap_cons, Node.leafValue]

/-- Characterization of `GlowInvocation::typedArguments` when the
arguments sequence is present. -/
theorem typedArguments_eq (inv : GlowInvocation) (gs : List Node)
    (h : inv.argumentsConst = some gs) :
    inv.typedArguments =
      (gs.filterMap Node.leafValue, (gs.filterMap Node.leafValue).length) := by
  unfold GlowInvocation.typedArguments
  rw [h]
  simp [typedArguments_foldl]

/-- After `setTypedArguments`, the arguments sequence holds exactly one
fresh leaf per input value, in input order. -/
theorem argumentsConst_set (inv : GlowInvocation) (vs : List Value) :
    (inv.setTypedArguments vs).argumentsConst =
      some (vs.map fun v =>
        Node.variantLeaf GlowTags.ElementDefault v.toBerValue) := by
  unfold GlowInvocation.setTypedArguments GlowInvocation.argumentsConst
  simp only [foldl_append_map, List.nil_append]
  exact sequenceChildren_replaceFirst _ _ _
    (findSequence_ensure_isSome inv.children GlowTags.InvocationArguments)

/-- When the slot sequence was absent, setting through the freshly
created slot appends exactly one sequence node at the end. -/
theorem replaceFirst_of_absent (t : Nat) (gs : List Node) :
    ∀ cs : List Node, findSequence cs t = none →
      replaceFirstSequence (cs ++ [Node.sequence t []]) t gs =
        cs ++ [Node.sequence t gs] := by
  intro cs
  induction cs with
  | nil =>
    intro _
    simp [replaceFirstSequence, Node.isSequenceWithTag]
  | cons n rest ih =>
    intro h
    have hn : n.isSequenceWithTag t = false := by
      unfold findSequence at h
      rcases List.find?_eq_none.mp h n (by simp) with hx
      simpa using hx
    have hrest : findSequence rest t = none := by
      unfold findSequence at h ⊢
      rw [List.find?_cons_of_neg] at h
      · exact h
      · simp [hn]
    simp [replaceFirstSequence, hn, ih hrest]

/-- The read-only typed view is empty exactly when the slot lookup
fails. -/
theorem sequenceChildren_none_iff (cs : List Node) (t : Nat) :
    sequenceChildren cs t = none ↔ findSequence cs t = none := by
  unfold sequenceChildren
  cases hfind : findSequence cs t with
  | none => simp
  | some n =>
    have hp : n.isSequenceWithTag t := List.find?_some hfind
    cases n with
    | sequence tg sub => simp
    | variantLeaf tg v => simp [Node.isSequenceWithTag] at hp
    | elementCollection tg sub => simp [Node.isSequenceWithTag] at hp
    | tupleItemDescription tg sub => simp [Node.isSequenceWithTag] at hp

/-- Running the mutable typed-view accessor twice is the same as running
it once. -/
theorem ensureSequence_idem (cs : List Node) (t : Nat) :
    ensureSequence (ensureSequence cs t) t = ensureSequence cs t := by
  have h := findSequence_ensure_isSome cs t
  unfold ensureSequence at h ⊢
  split at h <;> simp_all [ensureSequence]

/-- Running the mutable children accessor twice is the same as running
it once. -/
theorem ensureChildren_idem (f : GlowFunctionBase) :
    f.ensureChildren.ensureChildren = f.ensureChildren := by
  unfold GlowFunctionBase.ensureChildren
  split
  case isTrue h => simp [h]
  case isFalse h =>
    simp only
    rw [if_pos]
    rw [List.find?_append]
    simp only [Option.not_isSome_iff_eq_none] at h
    rw [h]
    simp [Node.isElementCollectionWithTag]

end EmberPlus.Glow

namespace EmberPlus.Glow

/-- Claim C2: `GlowInvocation::typedArguments` copies into the
destination exactly the `dom::VariantLeaf` children of the arguments
container, converted back to typed values, in child order, silently
skipping every non-leaf child, and returns the count copied; a non-leaf
child contributes nothing whatever its own children are (grandchildren
are never examined); and `setTypedArguments(vs)` followed by
`typedArguments` yields exactly `vs` with count `vs.length`. -/
theorem C2_typed_arguments_roundtrip (inv : GlowInvocation) (gs : List Node)
    (vs : List Value) (t : Nat) (sub : List Node)
    (h : inv.argumentsConst = some gs) :
    inv.typedArguments =
      (gs.filterMap Node.leafValue, (gs.filterMap Node.leafValue).length) ∧
    Node.leafValue (Node.sequence t sub) = none ∧
    Node.leafValue (Node.elementCollection t sub) = none ∧
    Node.leafValue (Node.tupleItemDescription t sub) = none ∧
    (inv.setTypedArguments vs).typedArguments = (vs, vs.length) := by
  refine ⟨typedArguments_eq inv gs h, rfl, rfl, rfl, ?_⟩
  rw [typedArguments_eq _ _ (argumentsConst_set inv vs)]
  rw [List.filterMap_map]
  have hcomp :
      (Node.leafValue ∘ fun v : Value =>
        Node.variantLeaf GlowTags.ElementDefault v.toBerValue) = some := by
    funext v
    rfl
  rw [hcomp, List.filterMap_some]

/-- Witness for C2: the theorem applied at an invocation whose
arguments sequence mixes two leaves and one non-leaf child. -/
theorem C2_typed_arguments_roundtrip_witness :
    (GlowInvocation.mk [Node.sequence GlowTags.InvocationArguments
        [Node.variantLeaf 0 (BerValue.integer 5),
         Node.sequence 9 [Node.variantLeaf 0 BerValue.null],
         Node.variantLeaf 0 (BerValue.boolean true)]]).argumentsConst =
      some [Node.variantLeaf 0 (BerValue.integer 5),
        Node.sequence 9 [Node.variantLeaf 0 BerValue.null],
        Node.variantLeaf 0 (BerValue.boolean true)] ∧
    ((GlowInvocation.mk [Node.sequence GlowTags.InvocationArguments
        [Node.variantLeaf 0 (BerValue.integer 5),
         Node.sequence 9 [Node.variantLeaf 0 BerValue.null],
         Node.variantLeaf 0 (BerValue.boolean true)]]).typedArguments =
      ([Node.variantLeaf 0 (BerValue.integer 5),
        Node.sequence 9 [Node.variantLeaf 0 BerValue.null],
        Node.variantLeaf 0 (BerValue.boolean true)].filterMap Node.leafValue,
       ([Node.variantLeaf 0 (BerValue.integer 5),
         Node.sequence 9 [Node.variantLeaf 0 BerValue.null],
         Node.variantLeaf 0 (BerValue.boolean true)].filterMap
           Node.leafValue).length) ∧
      Node.leafValue (Node.sequence 9 [Node.variantLeaf 0 BerValue.null])
        = none ∧
      Node.leafValue (Node.elementCollection 9
        [Node.variantLeaf 0 BerValue.null]) = none ∧
      Node.leafValue (Node.tupleItemDescription 9
        [Node.variantLeaf 0 BerValue.null]) = none ∧
      ((GlowInvocation.mk [Node.sequence GlowTags.InvocationArguments
          [Node.variantLeaf 0 (BerValue.integer 5),
           Node.sequence 9 [Node.variantLeaf 0 BerValue.null],
           Node.variantLeaf 0 (BerValue.boolean true)]]).setTypedArguments
        [Value.mk (BerValue.integer 7),
         Value.mk (BerValue.utf8String "x")]).typedArguments =
        ([Value.mk (BerValue.integer 7), Value.mk (BerValue.utf8String "x")],
         [Value.mk (BerValue.integer 7),
          Value.mk (BerValue.utf8String "x")].length)) :=
  ⟨rfl,
    C2_typed_arguments_roundtrip
      (GlowInvocation.mk [Node.sequence GlowTags.InvocationArguments
        [Node.variantLeaf 0 (BerValue.integer 5),
         Node.sequence 9 [Node.variantLeaf 0 BerValue.null],
         Node.variantLeaf 0 (BerValue.boolean true)]])
      [Node.variantLeaf 0 (BerValue.integer 5),
       Node.sequence 9 [Node.variantLeaf 0 BerValue.null],
       Node.variantLeaf 0 (BerValue.boolean true)]
      [Value.mk (BerValue.integer 7), Value.mk (BerValue.utf8String "x")]
      9 [Node.variantLeaf 0 BerValue.null] rfl⟩

/-- Claim C3: `GlowInvocation::setTypedArguments` removes all existing
children of the arguments container and inserts exactly one freshly
constructed `dom::VariantLeaf` per input value, in input order, each
carrying the value's BER encoding under the default element tag; after
the call the container holds exactly as many children as input values. -/
theorem C3_set_typed_arguments (inv : GlowInvocation) (vs : List Value) :
    (inv.setTypedArguments vs).argumentsConst =
      some (vs.map fun v =>
        Node.variantLeaf GlowTags.ElementDefault v.toBerValue) ∧
    ((inv.setTypedArguments vs).argumentsConst.getD []).length = vs.length := by
  refine ⟨argumentsConst_set inv vs, ?_⟩
  rw [argumentsConst_set inv vs]
  simp

/-- Claim C10: `setTypedArguments` with an empty input range still
mutates the invocation tree: the arguments container afterwards exists
and is empty, and when it was absent beforehand the child list has
grown by the freshly materialized empty arguments container. -/
theorem C10_set_empty_still_mutates (inv : GlowInvocation) :
    (inv.setTypedArguments []).argumentsConst = some [] ∧
    (inv.argumentsConst = none →
      (inv.setTypedArguments []).children =
        inv.children ++ [Node.sequence GlowTags.InvocationArguments []]) := by
  constructor
  · simpa using argumentsConst_set inv []
  · intro h
    have hfind : findSequence inv.children GlowTags.InvocationArguments = none :=
      (sequenceChildren_none_iff _ _).mp h
    unfold GlowInvocation.setTypedArguments
    simp only [List.foldl_nil, ensureSequence, hfind, Option.isSome_none,
      Bool.false_eq_true, if_false]
    exact replaceFirst_of_absent _ _ inv.children hfind

/-- Witness for C10: the theorem applied at an invocation holding one
leaf child and no arguments container. -/
theorem C10_set_empty_still_mutates_witness :
    (GlowInvocation.mk [Node.variantLeaf 0 BerValue.null]).argumentsConst =
      none ∧
    ((GlowInvocation.mk
        [Node.variantLeaf 0 BerValue.null]).setTypedArguments
      []).argumentsConst = some [] ∧
    ((GlowInvocation.mk
        [Node.variantLeaf 0 BerValue.null]).setTypedArguments []).children =
      [Node.variantLeaf 0 BerValue.null] ++
        [Node.sequence GlowTags.InvocationArguments []] :=
  ⟨rfl,
    (C10_set_empty_still_mutates
      (GlowInvocation.mk [Node.variantLeaf 0 BerValue.null])).1,
    (C10_set_empty_still_mutates
      (GlowInvocation.mk [Node.variantLeaf 0 BerValue.null])).2 rfl⟩

end EmberPlus.Glow

namespace EmberPlus.Glow

/-- Claim C7: for a `GlowFunctionBase` holding no arguments, result or
children child, the read-only accessors return null and the typed
collectors return 0 with nothing written to the destination (being
const, none of them can insert a child; the model keeps them pure), and
each mutable accessor lazily creates the backing child exactly once:
the created slot is the single appended child, a second mutable call
changes nothing and both calls see the same (empty) backing child. -/
theorem C7_function_lazy_slots (f : GlowFunctionBase)
    (ha : ∀ n ∈ f.children,
      n.isSequenceWithTag GlowTags.FunctionArguments = false)
    (hr : ∀ n ∈ f.children,
      n.isSequenceWithTag GlowTags.FunctionResult = false)
    (hc : ∀ n ∈ f.children,
      n.isElementCollectionWithTag f.childrenTag = false) :
    f.argumentsConst = none ∧ f.resultConst = none ∧ f.childrenConst = none ∧
    f.typedArguments = ([], 0) ∧ f.typedResult = ([], 0) ∧
    f.ensureArguments.children =
      f.children ++ [Node.sequence GlowTags.FunctionArguments []] ∧
    f.ensureResult.children =
      f.children ++ [Node.sequence GlowTags.FunctionResult []] ∧
    f.ensureChildren.children =
      f.children ++ [Node.elementCollection f.childrenTag []] ∧
    f.ensureArguments.argumentsConst = some [] ∧
    f.ensureResult.resultConst = some [] ∧
    f.ensureArguments.ensureArguments = f.ensureArguments ∧
    f.ensureResult.ensureResult = f.ensureResult ∧
    f.ensureChildren.ensureChildren = f.ensureChildren := by
  have hfa : findSequence f.children GlowTags.FunctionArguments = none := by
    unfold findSequence
    exact List.find?_eq_none.mpr (by intro n hn; simp [ha n hn])
  have hfr : findSequence f.children GlowTags.FunctionResult = none := by
    unfold findSequence
    exact List.find?_eq_none.mpr (by intro n hn; simp [hr n hn])
  have hfc : f.children.find?
      (Node.isElementCollectionWithTag f.childrenTag) = none :=
    List.find?_eq_none.mpr (by intro n hn; simp [hc n hn])
  have hac : f.argumentsConst = none := by
    unfold GlowFunctionBase.argumentsConst
    exact (sequenceChildren_none_iff _ _).mpr hfa
  have hrc : f.resultConst = none := by
    unfold GlowFunctionBase.resultConst
    exact (sequenceChildren_none_iff _ _).mpr hfr
  have hcc : f.childrenConst = none := by
    unfold GlowFunctionBase.childrenConst
    rw [hfc]
  refine ⟨hac, hrc, hcc, ?_, ?_, ?_, ?_, ?_, ?_, ?_, ?_, ?_, ?_⟩
  · unfold GlowFunctionBase.typedArguments
    rw [hac]
  · unfold GlowFunctionBase.typedResult
    rw [hrc]
  · unfold GlowFunctionBase.ensureArguments
    simp [ensureSequence, hfa]
  · unfold GlowFunctionBase.ensureResult
    simp [ensureSequence, hfr]
  · unfold GlowFunctionBase.ensureChildren
    simp [hfc]
  · unfold GlowFunctionBase.ensureArguments GlowFunctionBase.argumentsConst
    simp only
    unfold sequenceChildren
    unfold findSequence ensureSequence
    rw [hfa]
    simp only [Option.isSome_none, Bool.false_eq_true, if_false]
    rw [List.find?_append]
    unfold findSequence at hfa
    rw [hfa]
    simp [Node.isSequenceWithTag]
  · unfold GlowFunctionBase.ensureResult GlowFunctionBase.resultConst
    simp only
    unfold sequenceChildren
    unfold findSequence ensureSequence
    rw [hfr]
    simp only [Option.isSome_none, Bool.false_eq_true, if_false]
    rw [List.find?_append]
    unfold findSequence at hfr
    rw [hfr]
    simp [Node.isSequenceWithTag]
  · unfold GlowFunctionBase.ensureArguments
    simp [ensureSequence_idem]
  · unfold GlowFunctionBase.ensureResult
    simp [ensureSequence_idem]
  · exact ensureChildren_idem f

/-- Witness for C7: the theorem applied at a function node with
children tag 7 and an empty child list. -/
theorem C7_function_lazy_slots_witness :
    (∀ n ∈ (GlowFunctionBase.mk 7 []).children,
      n.isSequenceWithTag GlowTags.FunctionArguments = false) ∧
    (∀ n ∈ (GlowFunctionBase.mk 7 []).children,
      n.isSequenceWithTag GlowTags.FunctionResult = false) ∧
    (∀ n ∈ (GlowFunctionBase.mk 7 []).children,
      n.isElementCollectionWithTag (GlowFunctionBase.mk 7 []).childrenTag
        = false) ∧
    ((GlowFunctionBase.mk 7 []).argumentsConst = none ∧
     (GlowFunctionBase.mk 7 []).resultConst = none ∧
     (GlowFunctionBase.mk 7 []).childrenConst = none ∧
     (GlowFunctionBase.mk 7 []).typedArguments = ([], 0) ∧
     (GlowFunctionBase.mk 7 []).typedResult = ([], 0) ∧
     (GlowFunctionBase.mk 7 []).ensureArguments.children =
       (GlowFunctionBase.mk 7 []).children ++
         [Node.sequence GlowTags.FunctionArguments []] ∧
     (GlowFunctionBase.mk 7 []).ensureResult.children =
       (GlowFunctionBase.mk 7 []).children ++
         [Node.sequence GlowTags.FunctionResult []] ∧
     (GlowFunctionBase.mk 7 []).ensureChildren.children =
       (GlowFunctionBase.mk 7 []).children ++
         [Node.elementCollection (GlowFunctionBase.mk 7 []).childrenTag []] ∧
     (GlowFunctionBase.mk 7 []).ensureArguments.argumentsConst = some [] ∧
     (GlowFunctionBase.mk 7 []).ensureResult.resultConst = some [] ∧
     (GlowFunctionBase.mk 7 []).ensureArguments.ensureArguments =
       (GlowFunctionBase.mk 7 []).ensureArguments ∧
     (GlowFunctionBase.mk 7 []).ensureResult.ensureResult =
       (GlowFunctionBase.mk 7 []).ensureResult ∧
     (GlowFunctionBase.mk 7 []).ensureChildren.ensureChildren =
       (GlowFunctionBase.mk 7 []).ensureChildren) :=
  ⟨by simp, by simp, by simp,
    C7_function_lazy_slots (GlowFunctionBase.mk 7 [])
      (by simp) (by simp) (by simp)⟩

end EmberPlus.Glow
